import Mathlib

/-
  Verification of the go-ernesto reconciliation agent.

  The development shallowly embeds the three Go variants of the program:
  - src/cronjob/main.go : one-shot pass with the conflict-safe updater,
  - src/cmd/main.go     : ticker loop, workers resolve only (no updater),
  - src/unnamed/part_001: early ticker-loop prototype.

  Go interface values in the unstructured records become the inductive
  type Value; Go maps become association lists (key order is a
  representation detail, Go maps are unordered); fallible calls return
  Except; the external store and the remote git transport are modelled
  as explicit fault/response schedules (Env, clone streams).
-/

namespace Ernesto

/-- Dynamic record values: the shapes an interface value can take inside an
unstructured Kubernetes object (string, nested map, list, number, bool, nil). -/
inductive Value where
  | str  : String → Value
  | vmap : List (String × Value) → Value
  | arr  : List Value → Value
  | num  : Int → Value
  | boolean : Bool → Value
  | null : Value

/-- Go map read: m[k] (nil when the key is absent). -/
def mapGet : List (String × Value) → String → Option Value
  | [], _ => none
  | (k, v) :: rest, key => if k = key then some v else mapGet rest key

/-- Go map write: m[k] = v (replace the existing entry, else add one). -/
def mapSet : List (String × Value) → String → Value → List (String × Value)
  | [], key, value => [(key, value)]
  | (k, v) :: rest, key, value =>
    if k = key then (k, value) :: rest else (k, v) :: mapSet rest key value

/-- unstructured.NestedFieldNoCopy: walk the field path through nested maps;
none when a key is absent or a non-map is traversed. -/
def getNestedValue : Value → List String → Option Value
  | v, [] => some v
  | .vmap m, key :: rest =>
    match mapGet m key with
    | some v => getNestedValue v rest
    | none => none
  | _, _ :: _ => none

/-- unstructured.SetNestedField on a map object: descend the path, creating
empty intermediate maps for absent keys, failing on an existing non-map; set
the final field. (Go mutates in place, but on the error path no mutation has
happened yet: creation only occurs on absent keys, after which every deeper
step also creates, so a pure result is observationally equal.) -/
def setNestedFieldMap (m : List (String × Value)) (value : Value) :
    List String → Except String (List (String × Value))
  | [] => .error "SetNestedField requires at least one field"
  | key :: rest =>
    match rest with
    | [] => .ok (mapSet m key value)
    | _ :: _ =>
      match mapGet m key with
      | some (.vmap sub) =>
        match setNestedFieldMap sub value rest with
        | .ok sub₂ => .ok (mapSet m key (.vmap sub₂))
        | .error e => .error e
      | some _ =>
        .error ("value cannot be set because field " ++ key ++ " is not a map of string to any")
      | none =>
        match setNestedFieldMap ([] : List (String × Value)) value rest with
        | .ok sub₂ => .ok (mapSet m key (.vmap sub₂))
        | .error e => .error e

/-- Boolean path-prefix test on field paths. -/
def pathPrefix : List String → List String → Bool
  | [], _ => true
  | _ :: _, [] => false
  | a :: as, b :: bs => a == b && pathPrefix as bs

/-- One entry of the changeset built in processRepo (src/cronjob/main.go,
type unstructuredChange). -/
structure unstructuredChange where
  keys : List String
  value : String

/-- A wall-clock instant as Go time.Time exposes it to Format. -/
structure GoTime where
  weekday : Fin 7
  day : Nat
  month : Fin 12
  year : Nat
  hour : Nat
  minute : Nat
  second : Nat
  zone : String

def weekdayNames : List String :=
  ["Sun", "Mon", "Tue", "Wed", "Thu", "Fri", "Sat"]

def monthNames : List String :=
  ["Jan", "Feb", "Mar", "Apr", "May", "Jun", "Jul", "Aug", "Sep", "Oct", "Nov", "Dec"]

/-- Zero-padded two-digit number (Go layout fragments 02, 15, 04, 05). -/
def pad2 (n : Nat) : String :=
  if n < 10 then "0" ++ toString n else toString n

/-- Zero-padded four-digit year (Go layout fragment 2006). -/
def pad4 (n : Nat) : String :=
  if n < 10 then "000" ++ toString n
  else if n < 100 then "00" ++ toString n
  else if n < 1000 then "0" ++ toString n
  else toString n

/-- time.Time.Format(time.RFC1123): layout Mon, 02 Jan 2006 15:04:05 MST. -/
def formatRFC1123 (t : GoTime) : String :=
  List.getD weekdayNames t.weekday.val "Sun" ++ ", " ++ pad2 t.day ++ " " ++
  List.getD monthNames t.month.val "Jan" ++ " " ++ pad4 t.year ++ " " ++
  pad2 t.hour ++ ":" ++ pad2 t.minute ++ ":" ++ pad2 t.second ++ " " ++ t.zone

/-- Field path of the last-sync-time annotation (src/cronjob/main.go line 144). -/
def lastSyncKeys : List String :=
  ["metadata", "annotations", "ernesto.0x42.in/last-sync-time"]

/-- Field path of the commit-hash annotation (src/cronjob/main.go line 145). -/
def commitHashKeys : List String :=
  ["metadata", "annotations", "ernesto.0x42.in/commit-hash"]

/-- The changeset built in processRepo before the retry loop (lines 143-146):
the formatted timestamp first, the commit hash second. -/
def changesetFor (hash : String) (now : GoTime) : List unstructuredChange :=
  [ ⟨lastSyncKeys, formatRFC1123 now⟩, ⟨commitHashKeys, hash⟩ ]

/-- The for-loop over the changeset inside the retry closure (lines 162-166):
apply each SetNestedField in order, stopping at the first error. -/
def applyChanges (obj : List (String × Value)) :
    List unstructuredChange → Except String (List (String × Value))
  | [] => .ok obj
  | c :: rest =>
    match setNestedFieldMap obj (.str c.value) c.keys with
    | .error e => .error e
    | .ok obj₂ => applyChanges obj₂ rest

/-- Errors surfaced by the store client; apierrors.IsConflict distinguishes
optimistic-concurrency conflicts from every other error. -/
inductive KErr where
  | conflict : String → KErr
  | other : String → KErr
deriving DecidableEq

/-- apierrors.IsConflict, the retriable predicate of retry.RetryOnConflict. -/
def KErr.isConflict : KErr → Bool
  | .conflict _ => true
  | .other _ => false

def KErr.msg : KErr → String
  | .conflict m => m
  | .other m => m

/-- The store holds the one record addressed by the worker's
(namespace, name) key. -/
structure StoreState where
  record : List (String × Value)

/-- The environment of one applyChangeset run: per-attempt outcomes of the
Get call (none = success) and the Update call (none = accepted; some e = the
write is rejected with e and the store is left unchanged), an optional
concurrent writer replacing the record before attempt i reads it, and the
random jitter consumed by the backoff sleeps. -/
structure Env where
  getO : Nat → Option KErr
  updO : Nat → Option KErr
  interf : Nat → Option (List (String × Value))
  jitter : Nat → Nat

/-- What one execution of the retry closure (src/cronjob/main.go lines
154-170) did: the Get failed, a SetNestedField failed on the record that was
read, or the Update was submitted (carrying its outcome). -/
inductive AttemptRes where
  | getFailed : KErr → AttemptRes
  | setFailed : List (String × Value) → String → AttemptRes
  | updated : List (String × Value) → List (String × Value) → Option KErr → AttemptRes

/-- The error the closure returns for this attempt; a SetNestedField failure
is a plain (non-conflict) error. -/
def AttemptRes.err : AttemptRes → Option KErr
  | .getFailed e => some e
  | .setFailed _ m => some (.other m)
  | .updated _ _ r => r

/-- One execution of the closure passed to retry.RetryOnConflict: Get the
record, apply every change of the changeset to the freshly read copy, submit
the mutated record as an Update. The store changes only when the Update is
accepted. -/
def attemptCore (env : Env) (cs : List unstructuredChange) (i : Nat)
    (st : StoreState) : AttemptRes × StoreState :=
  match env.getO i with
  | some e => (.getFailed e, st)
  | none =>
    match applyChanges st.record cs with
    | .error m => (.setFailed st.record m, st)
    | .ok mutated =>
      match env.updO i with
      | some e => (.updated st.record mutated (some e), st)
      | none => (.updated st.record mutated none, ⟨mutated⟩)

/-- wait.Backoff Duration 10ms, Factor 1.0, Jitter 0.1 (retry.DefaultRetry):
the base duration never grows, each sleep adds a random jitter below 1ms
(the real jitter is a float in [0, 0.1) times the duration; it is abstracted
here to a nonnegative sub-millisecond increment, in nanoseconds). -/
def sleepNs (env : Env) (i : Nat) : Nat :=
  10000000 + env.jitter i % 1000000

/-- Everything one run of the bounded retry produced: the returned error
(none = success), the final store, per attempt the record the store held
when the attempt read it together with what the attempt did, and the sleep
durations between attempts. -/
structure RetryRun where
  result : Option KErr
  store : StoreState
  log : List (List (String × Value) × AttemptRes)
  sleeps : List Nat

/-- wait.ExponentialBackoff merged with retry.OnError: run the closure while
steps remain; success returns nil, a non-retriable (non-conflict) error is
returned at once, a conflict is remembered as lastErr and retried after a
backoff sleep; when the last step also conflicts, ErrWaitTimeout is replaced
by lastErr. A concurrent writer (env.interf) may replace the record between
attempts. -/
def stepStore (env : Env) (i : Nat) (st : StoreState) : StoreState :=
  match env.interf i with
  | some r => ⟨r⟩
  | none => st

def onErrorLoop (env : Env) (cs : List unstructuredChange) :
    Nat → Nat → Option KErr → StoreState → RetryRun
  | 0, _, lastErr, st => ⟨lastErr, st, [], []⟩
  | steps + 1, i, _, st₀ =>
    let st₁ := stepStore env i st₀
    let p := attemptCore env cs i st₁
    match p.1.err with
    | none => ⟨none, p.2, [(st₁.record, p.1)], []⟩
    | some e =>
      if e.isConflict then
        match steps with
        | 0 => ⟨some e, p.2, [(st₁.record, p.1)], []⟩
        | _ + 1 =>
          let rest := onErrorLoop env cs steps (i + 1) (some e) p.2
          ⟨rest.result, rest.store, (st₁.record, p.1) :: rest.log,
            sleepNs env i :: rest.sleeps⟩
      else ⟨some e, p.2, [(st₁.record, p.1)], []⟩

/-- retry.DefaultRetry.Steps. -/
def defaultRetrySteps : Nat := 5

/-- retry.RetryOnConflict(retry.DefaultRetry, closure): the conflict-safe
updater of one worker (the applyChangeset of the design). -/
def retryOnConflict (env : Env) (cs : List unstructuredChange)
    (st : StoreState) : RetryRun :=
  onErrorLoop env cs defaultRetrySteps 0 none st

/-- A decoded repository descriptor (src/cronjob/main.go lines 62-69; the
cronjob variant additionally stores the raw Unstructured record in the
struct, which no later code reads, and the cmd variant omits it). -/
structure Repository where
  name : String
  nspace : String
  url : String
  accessToken : String
  username : String

/-- git.CloneOptions as built in getLatestCommit: the URL plus basic-auth
username and access token. -/
structure CloneOptions where
  url : String
  username : String
  password : String

/-- The in-memory clone, exposing only Head(): the head reference hash or an
error. -/
structure ClonedRepo where
  head : Except String String

/-- The options getLatestCommit passes to git.Clone for a repository. -/
def cloneOpts (repo : Repository) : CloneOptions :=
  ⟨repo.url, repo.username, repo.accessToken⟩

/-- getLatestCommit (both variants, src/cronjob/main.go lines 104-123):
clone the remote into memory with the repository's credentials, return the
head hash; a clone or Head error is returned unchanged. The remote transport
is a stream of responses indexed by invocation; the function performs
exactly one clone, so only response 0 is consulted. -/
def getLatestCommit (clone : Nat → CloneOptions → Except String ClonedRepo)
    (repo : Repository) : Except String String :=
  match clone 0 (cloneOpts repo) with
  | .error e => .error e
  | .ok r =>
    match r.head with
    | .error e => .error e
    | .ok h => .ok h

/-- Observable outcome of one processRepo call in the cronjob variant:
whether wg.Done was signalled, the slog.Error record of a resolver failure
(error message and repository URL), the slog.Warn record of a retry failure
(error message, namespace, name), the retry outcome (none when the early
return skipped it), the retry log and sleeps, and the final store. -/
structure ProcessResult where
  wgDone : Bool
  errorLog : Option (String × String)
  warnLog : Option (String × String × String)
  retryErr : Option (Option KErr)
  attempts : List (List (String × Value) × AttemptRes)
  sleeps : List Nat
  store : StoreState

/-- processRepo of the cronjob variant (src/cronjob/main.go lines 130-181):
resolve the head commit; on failure log the error with the repository URL
and return early — the deferred wg.Done at line 180 was not yet registered,
so it never runs on this path. On success, build the changeset once (the
formatted current time and the hash) and run the conflict-safe update;
a final retry error is only logged. The function falls through to the
defer wg.Done() at its end on this path. -/
def processRepo (clone : Nat → CloneOptions → Except String ClonedRepo)
    (env : Env) (now : GoTime) (repo : Repository) (st : StoreState) :
    ProcessResult :=
  match getLatestCommit clone repo with
  | .error e =>
    { wgDone := false, errorLog := some (e, repo.url), warnLog := none,
      retryErr := none, attempts := [], sleeps := [], store := st }
  | .ok hash =>
    let run := retryOnConflict env (changesetFor hash now) st
    { wgDone := true, errorLog := none,
      warnLog := run.result.map (fun e => (e.msg, repo.nspace, repo.name)),
      retryErr := some run.result, attempts := run.log, sleeps := run.sleeps,
      store := run.store }

/-- processRepo of the cmd variant (src/cmd/main.go lines 136-150): resolve
only, no updater; the same misplaced defer — the early return on a resolver
failure skips wg.Done. Returns (wg.Done signalled, error log entry). -/
def cmdProcessRepo (clone : Nat → CloneOptions → Except String ClonedRepo)
    (repo : Repository) : Bool × Option (String × String) :=
  match getLatestCommit clone repo with
  | .error e => (false, some (e, repo.url))
  | .ok _ => (true, none)

/-- unstructured.NestedString with errors ignored, as GetName/GetNamespace
use it: the empty string when the field is absent or not a string. -/
def nestedString (obj : List (String × Value)) (fields : List String) : String :=
  match getNestedValue (.vmap obj) fields with
  | some (.str s) => s
  | _ => ""

/-- Unstructured.GetName. -/
def getName (obj : List (String × Value)) : String :=
  nestedString obj ["metadata", "name"]

/-- Unstructured.GetNamespace. -/
def getNamespace (obj : List (String × Value)) : String :=
  nestedString obj ["metadata", "namespace"]

/-- Decoding of one listed record in getRepos (cronjob lines 86-98, cmd
lines 98-109), with every Go type assertion made explicit: the slog.Info
call asserts metadata to a map, then spec is asserted to a map and the three
spec fields to strings, in the evaluation order of the source. An error is
the message of the runtime panic the failed assertion raises. -/
def decodeItem (obj : List (String × Value)) : Except String Repository :=
  match mapGet obj "metadata" with
  | some (.vmap _) =>
    match mapGet obj "spec" with
    | some (.vmap spec) =>
      match mapGet spec "repoUrl" with
      | some (.str url) =>
        match mapGet spec "accessToken" with
        | some (.str tok) =>
          match mapGet spec "username" with
          | some (.str user) =>
            .ok { name := getName obj, nspace := getNamespace obj,
                  url := url, accessToken := tok, username := user }
          | _ => .error "interface conversion: spec.username is not a string"
        | _ => .error "interface conversion: spec.accessToken is not a string"
      | _ => .error "interface conversion: spec.repoUrl is not a string"
    | _ => .error "interface conversion: spec is not a map of string to any"
  | _ => .error "interface conversion: metadata is not a map of string to any"

/-- The decode loop of getRepos: the first failed assertion panics and
aborts the whole pass. -/
def decodeItems : List (List (String × Value)) → Except String (List Repository)
  | [] => .ok []
  | obj :: rest =>
    match decodeItem obj with
    | .error m => .error m
    | .ok r =>
      match decodeItems rest with
      | .error m => .error m
      | .ok rs => .ok (r :: rs)

/-- How a getRepos call ends: a decoded repository list, a returned list
error, or a runtime panic from a type assertion. -/
inductive ListOutcome where
  | ok : List Repository → ListOutcome
  | err : KErr → ListOutcome
  | panicked : String → ListOutcome

/-- getRepos of the cronjob and cmd variants (textually the same decode,
cronjob lines 71-102, cmd lines 83-113): a failed List call is returned as
the error; otherwise each item is decoded and the slice of repositories is
returned. -/
def getReposGo (listResp : Except KErr (List (List (String × Value)))) :
    ListOutcome :=
  match listResp with
  | .error e => .err e
  | .ok items =>
    match decodeItems items with
    | .error m => .panicked m
    | .ok rs => .ok rs

/-- The part_001 repository descriptor (src/unnamed/part_001 lines 66-71):
URL is a *url.URL pointer, nil when never assigned. -/
structure Repository001 where
  name : String
  nspace : String
  url : Option String
  accessToken : String

/-- part_001 record decode (lines 88-93): only the slog.Info metadata
assertion can panic; the entry keeps name and namespace, URL stays nil and
AccessToken empty. -/
def decodeItem001 (obj : List (String × Value)) : Except String Repository001 :=
  match mapGet obj "metadata" with
  | some (.vmap _) =>
    .ok { name := getName obj, nspace := getNamespace obj,
          url := none, accessToken := "" }
  | _ => .error "interface conversion: metadata is not a map of string to any"

def decodeItems001 :
    List (List (String × Value)) → Except String (List Repository001)
  | [] => .ok []
  | obj :: rest =>
    match decodeItem001 obj with
    | .error m => .error m
    | .ok r =>
      match decodeItems001 rest with
      | .error m => .error m
      | .ok rs => .ok (r :: rs)

inductive ListOutcome001 where
  | ok : List Repository001 → ListOutcome001
  | err : KErr → ListOutcome001
  | panicked : String → ListOutcome001

/-- getRepos of the part_001 variant (lines 73-97): a failed List call is
returned; otherwise the repositories slice is built entry by entry and then
discarded — line 96 is return nil, nil, so a successful call always yields
the nil slice and the nil error. -/
def getRepos001 (listResp : Except KErr (List (List (String × Value)))) :
    ListOutcome001 :=
  match listResp with
  | .error e => .err e
  | .ok items =>
    match decodeItems001 items with
    | .error m => .panicked m
    | .ok _ => .ok []

/-- What one tick of a reconciler loop does per branch: log a failed list,
launch one worker goroutine per repository (wg.Add(1); go processRepo), or
spew.Dump the returned slice. -/
inductive TickAction where
  | logListError : KErr → TickAction
  | launchWorker : Repository → TickAction
  | dumpRepos001 : List Repository001 → TickAction

/-- The ticker branch of the cmd loop (src/cmd/main.go lines 56-65): list,
log on error, else launch one worker per repository. A decode panic crashes
the loop (error). -/
def cmdTick (resp : Except KErr (List (List (String × Value)))) :
    Except String (List TickAction) :=
  match getReposGo resp with
  | .err e => .ok [.logListError e]
  | .ok rs => .ok (rs.map .launchWorker)
  | .panicked m => .error m

/-- The ticker branch of the part_001 loop (src/unnamed/part_001 lines
51-57): list, log on error, else dump the (nil) slice; no worker is ever
launched — the body contains no go statement. -/
def part001Tick (resp : Except KErr (List (List (String × Value)))) :
    Except String (List TickAction) :=
  match getRepos001 resp with
  | .err e => .ok [.logListError e]
  | .ok rs => .ok [.dumpRepos001 rs]
  | .panicked m => .error m

/-- One wakeup of the select loop: a ticker tick carrying that tick's List
response, or the cancellation context firing. -/
inductive SelectCase where
  | tick : Except KErr (List (List (String × Value))) → SelectCase
  | done : SelectCase

/-- Whether the loop body ends the loop (break Loop) or re-enters select. -/
inductive LoopCtl where
  | next : LoopCtl
  | brk : LoopCtl

/-- One iteration of the cmd loop (src/cmd/main.go lines 54-71): a tick
dispatches workers and continues; the Done case runs cancel() and breaks
out of the labelled loop. -/
def cmdLoopCase (c : SelectCase) : LoopCtl × Except String (List TickAction) :=
  match c with
  | .tick resp => (.next, cmdTick resp)
  | .done => (.brk, .ok [])

/-- One iteration of the part_001 loop (src/unnamed/part_001 lines 49-62):
a tick lists and dumps; the Done case runs cancel() only — there is no
break, so the loop re-enters select. -/
def part001LoopCase (c : SelectCase) :
    LoopCtl × Except String (List TickAction) :=
  match c with
  | .tick resp => (.next, part001Tick resp)
  | .done => (.next, .ok [])

/-- A loop run over a finite schedule of select wakeups: it either returned
(break reached), ran out of scheduled wakeups while still looping, or
crashed on a decode panic; in each case carrying the tick actions performed. -/
inductive LoopRun where
  | returned : List TickAction → LoopRun
  | ranOut : List TickAction → LoopRun
  | crashed : List TickAction → String → LoopRun

def runLoop (step : SelectCase → LoopCtl × Except String (List TickAction)) :
    List SelectCase → LoopRun
  | [] => .ranOut []
  | c :: rest =>
    match step c with
    | (.brk, _) => .returned []
    | (.next, .error m) => .crashed [] m
    | (.next, .ok as) =>
      match runLoop step rest with
      | .returned bs => .returned (as ++ bs)
      | .ranOut bs => .ranOut (as ++ bs)
      | .crashed bs m => .crashed (as ++ bs) m

/-- Substring test on character lists, for stating what an error message
carries. -/
def containsSub : List Char → List Char → Bool
  | needle, [] => needle.isEmpty
  | needle, c :: rest => needle.isPrefixOf (c :: rest) || containsSub needle rest

/-! Concrete fixtures used by the witness and counterexample theorems. -/

/-- Wed, 01 Jan 2020 10:00:00 UTC. -/
def nowW : GoTime :=
  { weekday := 3, day := 1, month := 0, year := 2020,
    hour := 10, minute := 0, second := 0, zone := "UTC" }

def repoW : Repository :=
  { name := "repo-a", nspace := "tacos", url := "https://example/a.git",
    accessToken := "t", username := "u" }

/-- A remote whose head resolves to abc123. -/
def cloneOkW : Nat → CloneOptions → Except String ClonedRepo :=
  fun _ _ => .ok ⟨.ok "abc123"⟩

/-- A remote rejecting the credentials. -/
def cloneFailW : Nat → CloneOptions → Except String ClonedRepo :=
  fun _ _ => .error "authentication required"

/-- A remote stream agreeing with cloneOkW on the first (only consulted)
response and differing afterwards. -/
def cloneAltW : Nat → CloneOptions → Except String ClonedRepo :=
  fun n _ =>
    if n = 0 then .ok ⟨.ok "abc123"⟩ else .error "remote vanished"

/-- The stored record of repo-a before the cycle. -/
def recInitW : List (String × Value) :=
  [ ("metadata", .vmap [("name", .str "repo-a")]),
    ("spec", .vmap [ ("repoUrl", .str "https://example/a.git"),
                     ("accessToken", .str "t"),
                     ("username", .str "u") ]) ]

/-- A store and remote where everything succeeds. -/
def envBenign : Env :=
  { getO := fun _ => none, updO := fun _ => none,
    interf := fun _ => none, jitter := fun _ => 0 }

/-- Every Update call is rejected with a distinct conflict. -/
def envConflictW : Env :=
  { getO := fun _ => none,
    updO := fun i => some (.conflict ("the object has been modified " ++ toString i)),
    interf := fun _ => none, jitter := fun _ => 0 }

/-- Every Get call fails with a conflict-classified error. -/
def envGetConflictW : Env :=
  { getO := fun _ => some (.conflict "get version conflict"),
    updO := fun _ => none, interf := fun _ => none, jitter := fun _ => 0 }

/-- The first Get fails with a plain (non-conflict) error. -/
def envGetOtherW : Env :=
  { getO := fun _ => some (.other "connection refused"),
    updO := fun _ => none, interf := fun _ => none, jitter := fun _ => 0 }

/-- The changeset of the witnesses. -/
def csW : List unstructuredChange := changesetFor "abc123" nowW

/-- A listed item missing spec.repoUrl. -/
def badItemW : List (String × Value) :=
  [ ("metadata", .vmap [("name", .str "repo-a")]),
    ("spec", .vmap [ ("accessToken", .str "t"), ("username", .str "u") ]) ]

/-- The wakeup schedule of the cancellation scenario: the signal fires, then
the ticker fires once more (with a failing List call). -/
def schedW : List SelectCase :=
  [SelectCase.done, SelectCase.tick (Except.error (KErr.other "boom"))]

/-! Library lemmas about the map and path primitives. -/

theorem mapGet_mapSet_self (m : List (String × Value)) (k : String) (v : Value) :
    mapGet (mapSet m k v) k = some v := by
  induction m with
  | nil => simp [mapSet, mapGet]
  | cons p rest ih =>
    obtain ⟨k₀, v₀⟩ := p
    by_cases h : k₀ = k
    · subst h
      simp [mapSet, mapGet]
    · simp [mapSet, mapGet, h, ih]

theorem mapGet_mapSet_ne (m : List (String × Value)) (k k₂ : String) (v : Value)
    (h : k₂ ≠ k) : mapGet (mapSet m k v) k₂ = mapGet m k₂ := by
  induction m with
  | nil => simp [mapSet, mapGet, Ne.symm h]
  | cons p rest ih =>
    obtain ⟨k₀, v₀⟩ := p
    by_cases h₀ : k₀ = k
    · subst h₀
      simp [mapSet, mapGet, Ne.symm h]
    · simp only [mapSet, if_neg h₀, mapGet]
      by_cases h₂ : k₀ = k₂
      · simp [h₂]
      · simp [h₂, ih]

/-- Unfolding of SetNestedField at a one-field path. -/
theorem setNested_single (m : List (String × Value)) (v : Value) (k : String) :
    setNestedFieldMap m v [k] = .ok (mapSet m k v) := rfl

/-- Unfolding of SetNestedField at a path of two or more fields. -/
theorem setNested_cons₂ (m : List (String × Value)) (v : Value) (k r : String)
    (rs : List String) :
    setNestedFieldMap m v (k :: r :: rs) =
      (match mapGet m k with
       | some (.vmap sub) =>
         match setNestedFieldMap sub v (r :: rs) with
         | .ok sub₂ => .ok (mapSet m k (.vmap sub₂))
         | .error e => .error e
       | some _ =>
         .error ("value cannot be set because field " ++ k ++ " is not a map of string to any")
       | none =>
         match setNestedFieldMap ([] : List (String × Value)) v (r :: rs) with
         | .ok sub₂ => .ok (mapSet m k (.vmap sub₂))
         | .error e => .error e) := rfl

/-- Every successful SetNestedField with a nonempty path replaces exactly the
entry at the head key of the path. -/
theorem setNested_shape (m m₂ : List (String × Value)) (v : Value) (k : String)
    (p : List String) (hset : setNestedFieldMap m v (k :: p) = .ok m₂) :
    ∃ w, m₂ = mapSet m k w := by
  cases p with
  | nil =>
    rw [setNested_single] at hset
    exact ⟨v, by cases hset; rfl⟩
  | cons r rs =>
    rw [setNested_cons₂] at hset
    cases hmk : mapGet m k with
    | none =>
      rw [hmk] at hset
      dsimp only at hset
      cases hrec : setNestedFieldMap ([] : List (String × Value)) v (r :: rs) with
      | ok sub₂ =>
        rw [hrec] at hset
        exact ⟨.vmap sub₂, by cases hset; rfl⟩
      | error e => rw [hrec] at hset; cases hset
    | some val =>
      rw [hmk] at hset
      cases val with
      | vmap sub =>
        dsimp only at hset
        cases hrec : setNestedFieldMap sub v (r :: rs) with
        | ok sub₂ =>
          rw [hrec] at hset
          exact ⟨.vmap sub₂, by cases hset; rfl⟩
        | error e => rw [hrec] at hset; cases hset
      | str s => cases hset
      | arr a => cases hset
      | num n => cases hset
      | boolean b => cases hset
      | null => cases hset

/-- After a successful SetNestedField, reading back the path yields the
value that was set. -/
theorem setNested_get (p : List String) :
    ∀ (m m₂ : List (String × Value)) (v : Value), p ≠ [] →
      setNestedFieldMap m v p = .ok m₂ →
      getNestedValue (.vmap m₂) p = some v := by
  induction p with
  | nil => intro m m₂ v hne _; exact absurd rfl hne
  | cons k rest ih =>
    intro m m₂ v _ hset
    cases rest with
    | nil =>
      rw [setNested_single] at hset
      cases hset
      simp [getNestedValue, mapGet_mapSet_self]
    | cons r rs =>
      rw [setNested_cons₂] at hset
      cases hmk : mapGet m k with
      | none =>
        rw [hmk] at hset
        dsimp only at hset
        cases hrec : setNestedFieldMap ([] : List (String × Value)) v (r :: rs) with
        | ok sub₂ =>
          rw [hrec] at hset
          cases hset
          simp only [getNestedValue, mapGet_mapSet_self]
          exact ih [] sub₂ v (by simp) hrec
        | error e => rw [hrec] at hset; cases hset
      | some val =>
        rw [hmk] at hset
        cases val with
        | vmap sub =>
          dsimp only at hset
          cases hrec : setNestedFieldMap sub v (r :: rs) with
          | ok sub₂ =>
            rw [hrec] at hset
            cases hset
            simp only [getNestedValue, mapGet_mapSet_self]
            exact ih sub sub₂ v (by simp) hrec
          | error e => rw [hrec] at hset; cases hset
        | str s => cases hset
        | arr a => cases hset
        | num n => cases hset
        | boolean b => cases hset
        | null => cases hset

/-- Unfolding of the nested read at a nonempty path. -/
theorem getNested_cons (M : List (String × Value)) (key : String)
    (q : List String) :
    getNestedValue (.vmap M) (key :: q) =
      (match mapGet M key with
       | some v => getNestedValue v q
       | none => none) := rfl

/-- Frame property of SetNestedField: any path that neither extends the set
path nor is extended by it reads the same value before and after. -/
theorem setNested_frame (p : List String) :
    ∀ (m m₂ : List (String × Value)) (v : Value) (q : List String),
      setNestedFieldMap m v p = .ok m₂ →
      pathPrefix p q = false → pathPrefix q p = false →
      getNestedValue (.vmap m₂) q = getNestedValue (.vmap m) q := by
  induction p with
  | nil => intro m m₂ v q hset _ _; simp [setNestedFieldMap] at hset
  | cons k rest ih =>
    intro m m₂ v q hset hpq hqp
    cases q with
    | nil => simp [pathPrefix] at hqp
    | cons k₂ qs =>
      by_cases hk : k₂ = k
      · subst hk
        simp only [pathPrefix, beq_self_eq_true, Bool.true_and] at hpq hqp
        cases rest with
        | nil => simp [pathPrefix] at hpq
        | cons r rs =>
          cases qs with
          | nil => simp [pathPrefix] at hqp
          | cons z zs =>
            rw [setNested_cons₂] at hset
            cases hmk : mapGet m k₂ with
            | none =>
              rw [hmk] at hset
              dsimp only at hset
              cases hrec : setNestedFieldMap ([] : List (String × Value)) v (r :: rs) with
              | ok sub₂ =>
                rw [hrec] at hset
                cases hset
                rw [getNested_cons, getNested_cons, mapGet_mapSet_self, hmk]
                dsimp only
                rw [ih [] sub₂ v (z :: zs) hrec hpq hqp]
                simp [getNested_cons, mapGet]
              | error e => rw [hrec] at hset; cases hset
            | some val =>
              rw [hmk] at hset
              cases val with
              | vmap sub =>
                dsimp only at hset
                cases hrec : setNestedFieldMap sub v (r :: rs) with
                | ok sub₂ =>
                  rw [hrec] at hset
                  cases hset
                  rw [getNested_cons, getNested_cons, mapGet_mapSet_self, hmk]
                  dsimp only
                  exact ih sub sub₂ v (z :: zs) hrec hpq hqp
                | error e => rw [hrec] at hset; cases hset
              | str s => cases hset
              | arr a => cases hset
              | num n => cases hset
              | boolean b => cases hset
              | null => cases hset
      · obtain ⟨w, rfl⟩ := setNested_shape m m₂ v k rest hset
        rw [getNested_cons, getNested_cons, mapGet_mapSet_ne m k k₂ w hk]

/-- A successful two-change application decomposes into the two
SetNestedField calls in order. -/
theorem applyChanges_pair (obj obj₂ : List (String × Value)) (v₁ v₂ : String)
    (p₁ p₂ : List String)
    (h : applyChanges obj [⟨p₁, v₁⟩, ⟨p₂, v₂⟩] = .ok obj₂) :
    ∃ o₁, setNestedFieldMap obj (.str v₁) p₁ = .ok o₁
      ∧ setNestedFieldMap o₁ (.str v₂) p₂ = .ok obj₂ := by
  simp only [applyChanges] at h
  cases h₁ : setNestedFieldMap obj (.str v₁) p₁ with
  | error e => rw [h₁] at h; cases h
  | ok o₁ =>
    rw [h₁] at h
    dsimp only at h
    cases h₂ : setNestedFieldMap o₁ (.str v₂) p₂ with
    | error e => rw [h₂] at h; dsimp only at h; cases h
    | ok o₂ =>
      rw [h₂] at h
      dsimp only at h
      cases h
      exact ⟨o₁, rfl, h₂⟩

/-- What one successful application of the worker's changeset does to a
record: both annotation paths now hold the new values, and every path that
is incomparable with both annotation paths is untouched. -/
theorem changeset_spec (obj obj₂ : List (String × Value)) (h : String)
    (now : GoTime)
    (happ : applyChanges obj (changesetFor h now) = .ok obj₂) :
    getNestedValue (.vmap obj₂) commitHashKeys = some (.str h)
    ∧ getNestedValue (.vmap obj₂) lastSyncKeys = some (.str (formatRFC1123 now))
    ∧ ∀ q, pathPrefix q lastSyncKeys = false → pathPrefix lastSyncKeys q = false →
        pathPrefix q commitHashKeys = false → pathPrefix commitHashKeys q = false →
        getNestedValue (.vmap obj₂) q = getNestedValue (.vmap obj) q := by
  obtain ⟨o₁, h₁, h₂⟩ :=
    applyChanges_pair obj obj₂ (formatRFC1123 now) h lastSyncKeys commitHashKeys happ
  refine ⟨?_, ?_, ?_⟩
  · exact setNested_get commitHashKeys o₁ obj₂ (.str h) (by simp [commitHashKeys]) h₂
  · rw [setNested_frame commitHashKeys o₁ obj₂ (.str h) lastSyncKeys h₂
      (by decide) (by decide)]
    exact setNested_get lastSyncKeys obj o₁ (.str (formatRFC1123 now))
      (by simp [lastSyncKeys]) h₁
  · intro q hq₁ hq₂ hq₃ hq₄
    rw [setNested_frame commitHashKeys o₁ obj₂ (.str h) q h₂ hq₄ hq₃]
    exact setNested_frame lastSyncKeys obj o₁ (.str (formatRFC1123 now)) q h₁ hq₂ hq₁

/-- Setting the commit-hash annotation succeeds whenever the traversed
prefix contains only maps or absent keys: in particular an absent
metadata.annotations map is created rather than failing. -/
theorem setNested_creates (obj : List (String × Value)) (v : String)
    (hshape : mapGet obj "metadata" = none
      ∨ ∃ md, mapGet obj "metadata" = some (.vmap md)
          ∧ (mapGet md "annotations" = none
             ∨ ∃ an, mapGet md "annotations" = some (.vmap an))) :
    ∃ obj₂, setNestedFieldMap obj (.str v) commitHashKeys = .ok obj₂
      ∧ getNestedValue (.vmap obj₂) commitHashKeys = some (.str v) := by
  have hex : ∃ obj₂, setNestedFieldMap obj (.str v) commitHashKeys = .ok obj₂ := by
    rcases hshape with hmd | ⟨md, hmd, han⟩
    · exact ⟨_, by
        rw [show commitHashKeys =
          "metadata" :: "annotations" :: ["ernesto.0x42.in/commit-hash"] from rfl,
          setNested_cons₂, hmd]
        rfl⟩
    · rcases han with han | ⟨an, han⟩
      · exact ⟨_, by
          rw [show commitHashKeys =
            "metadata" :: "annotations" :: ["ernesto.0x42.in/commit-hash"] from rfl,
            setNested_cons₂, hmd]
          dsimp only
          rw [setNested_cons₂, han]
          rfl⟩
      · exact ⟨_, by
          rw [show commitHashKeys =
            "metadata" :: "annotations" :: ["ernesto.0x42.in/commit-hash"] from rfl,
            setNested_cons₂, hmd]
          dsimp only
          rw [setNested_cons₂, han]
          rfl⟩
  obtain ⟨obj₂, hobj₂⟩ := hex
  exact ⟨obj₂, hobj₂,
    setNested_get commitHashKeys obj obj₂ (.str v) (by simp [commitHashKeys]) hobj₂⟩

/-- Unfolding of one iteration of the retry loop. -/
theorem onErrorLoop_succ (env : Env) (cs : List unstructuredChange)
    (steps i : Nat) (lastErr : Option KErr) (st₀ : StoreState) :
    onErrorLoop env cs (steps + 1) i lastErr st₀ =
      (let st₁ := stepStore env i st₀
       let p := attemptCore env cs i st₁
       match p.1.err with
       | none => ⟨none, p.2, [(st₁.record, p.1)], []⟩
       | some e =>
         if e.isConflict then
           match steps with
           | 0 => ⟨some e, p.2, [(st₁.record, p.1)], []⟩
           | _ + 1 =>
             let rest := onErrorLoop env cs steps (i + 1) (some e) p.2
             ⟨rest.result, rest.store, (st₁.record, p.1) :: rest.log,
               sleepNs env i :: rest.sleeps⟩
         else ⟨some e, p.2, [(st₁.record, p.1)], []⟩) := rfl

/-- When every Get succeeds, no concurrent writer interferes, and every
Update is rejected with a conflict, the loop runs through all remaining
steps, re-reading and re-applying each time, sleeps between attempts, leaves
the store untouched, and ends with the conflict of the last attempt. -/
theorem onErrorLoop_conflicts (env : Env) (cs : List unstructuredChange)
    (st : StoreState) (m : List (String × Value))
    (hget : ∀ i, env.getO i = none) (hint : ∀ i, env.interf i = none)
    (hconf : ∀ i, ∃ e, env.updO i = some (.conflict e))
    (happ : applyChanges st.record cs = .ok m) :
    ∀ n i lastErr,
      (onErrorLoop env cs (n + 1) i lastErr st).result = env.updO (i + n)
      ∧ (onErrorLoop env cs (n + 1) i lastErr st).store = st
      ∧ (onErrorLoop env cs (n + 1) i lastErr st).log.length = n + 1
      ∧ (∀ e ∈ (onErrorLoop env cs (n + 1) i lastErr st).log,
          e.1 = st.record ∧ e.2 = .updated st.record m (e.2.err))
      ∧ (onErrorLoop env cs (n + 1) i lastErr st).sleeps.length = n
      ∧ (∀ d ∈ (onErrorLoop env cs (n + 1) i lastErr st).sleeps,
          ∃ j, d = sleepNs env j) := by
  intro n
  induction n with
  | zero =>
    intro i lastErr
    obtain ⟨e, he⟩ := hconf i
    rw [onErrorLoop_succ]
    simp only [stepStore, hint i, attemptCore, hget i, happ, he,
      AttemptRes.err, KErr.isConflict]
    simp [he]
  | succ n ih =>
    intro i lastErr
    obtain ⟨e, he⟩ := hconf i
    rw [onErrorLoop_succ]
    simp only [stepStore, hint i, attemptCore, hget i, happ, he,
      AttemptRes.err, KErr.isConflict]
    obtain ⟨h₁, h₂, h₃, h₄, h₅, h₆⟩ := ih (i + 1) (some (.conflict e))
    simp only [if_true]
    refine ⟨?_, h₂, ?_, ?_, ?_, ?_⟩
    · rw [h₁]
      congr 1
      omega
    · simp [h₃]
    · intro p hp
      rcases List.mem_cons.mp hp with hp | hp
      · subst hp
        exact ⟨rfl, by simp [AttemptRes.err, he]⟩
      · exact h₄ p hp
    · simp [h₅]
    · intro d hd
      rcases List.mem_cons.mp hd with hd | hd
      · exact ⟨i, hd⟩
      · exact h₆ d hd

/-- When an attempt reached the Update call, the record it mutated is the
one the very same attempt read from the store, and the submitted record is
the changeset applied to it. -/
theorem attemptCore_updated (env : Env) (cs : List unstructuredChange)
    (i : Nat) (st : StoreState) (got sub : List (String × Value))
    (r : Option KErr)
    (h : (attemptCore env cs i st).1 = .updated got sub r) :
    got = st.record ∧ applyChanges st.record cs = .ok sub := by
  simp only [attemptCore] at h
  cases hg : env.getO i with
  | some e => rw [hg] at h; simp at h
  | none =>
    rw [hg] at h
    dsimp only at h
    cases ha : applyChanges st.record cs with
    | error m => rw [ha] at h; simp at h
    | ok mu =>
      rw [ha] at h
      dsimp only at h
      cases hu : env.updO i with
      | some e =>
        rw [hu] at h
        dsimp only at h
        cases h
        exact ⟨rfl, rfl⟩
      | none =>
        rw [hu] at h
        dsimp only at h
        cases h
        exact ⟨rfl, rfl⟩

/-- Every logged attempt that submitted an update applied the fixed
changeset to the record read by that same attempt. -/
theorem onErrorLoop_log_spec (env : Env) (cs : List unstructuredChange) :
    ∀ steps i lastErr st,
      ∀ p ∈ (onErrorLoop env cs steps i lastErr st).log,
        ∀ got sub r, p.2 = AttemptRes.updated got sub r →
          got = p.1 ∧ applyChanges p.1 cs = Except.ok sub := by
  intro steps
  induction steps with
  | zero =>
    intro i lastErr st p hp
    simp [onErrorLoop] at hp
  | succ steps ih =>
    intro i lastErr st p hp got sub r hpr
    rw [onErrorLoop_succ] at hp
    dsimp only at hp
    cases hres : (attemptCore env cs i (stepStore env i st)).1.err with
    | none =>
      rw [hres] at hp
      dsimp only at hp
      rw [List.mem_singleton] at hp
      subst hp
      have hu := attemptCore_updated env cs i (stepStore env i st) got sub r hpr
      exact ⟨hu.1, hu.2⟩
    | some e =>
      rw [hres] at hp
      dsimp only at hp
      cases hc : e.isConflict with
      | false =>
        rw [hc] at hp
        simp only [Bool.false_eq_true, if_false] at hp
        rw [List.mem_singleton] at hp
        subst hp
        have hu := attemptCore_updated env cs i (stepStore env i st) got sub r hpr
        exact ⟨hu.1, hu.2⟩
      | true =>
        rw [hc] at hp
        simp only [if_true] at hp
        cases steps with
        | zero =>
          rw [List.mem_singleton] at hp
          subst hp
          have hu := attemptCore_updated env cs i (stepStore env i st) got sub r hpr
          exact ⟨hu.1, hu.2⟩
        | succ n =>
          dsimp only at hp
          rcases List.mem_cons.mp hp with hp | hp
          · subst hp
            have hu := attemptCore_updated env cs i (stepStore env i st) got sub r hpr
            exact ⟨hu.1, hu.2⟩
          · exact ih (i + 1) (some e)
              (attemptCore env cs i (stepStore env i st)).2 p hp got sub r hpr

/-- A fully successful decode yields one Repository per listed record. -/
theorem decodeItems_length :
    ∀ (items : List (List (String × Value))) (rs : List Repository),
      decodeItems items = Except.ok rs → rs.length = items.length := by
  intro items
  induction items with
  | nil => intro rs h; cases h; rfl
  | cons obj rest ih =>
    intro rs h
    simp only [decodeItems] at h
    cases hi : decodeItem obj with
    | error m => rw [hi] at h; cases h
    | ok r =>
      rw [hi] at h
      dsimp only at h
      cases hr : decodeItems rest with
      | error m => rw [hr] at h; dsimp only at h; cases h
      | ok rs₂ =>
        rw [hr] at h
        dsimp only at h
        cases h
        simp [ih rs₂ hr]

/-- retry.DefaultRetry has five steps. -/
theorem retryOnConflict_def (env : Env) (cs : List unstructuredChange)
    (st : StoreState) :
    retryOnConflict env cs st = onErrorLoop env cs (4 + 1) 0 none st := rfl

/-- Bounds of one backoff sleep: at least the 10ms base, below 11ms. -/
theorem sleepNs_bounds (env : Env) (j : Nat) :
    10000000 ≤ sleepNs env j ∧ sleepNs env j < 11000000 := by
  unfold sleepNs
  have := Nat.mod_lt (env.jitter j) (show 0 < 1000000 by norm_num)
  omega

/-- Claim C1: when a worker's resolver succeeds with hash h and the updater
succeeds (first attempt: clean Get, clean Update, no interference, changeset
applies), the stored record afterwards carries the commit-hash annotation h
and the last-sync-time annotation formatted per RFC 1123 from the wall
clock, and the pass wrote exactly the two annotation paths: every path
incomparable with both reads as before. -/
theorem c1_pass_writes_commit_hash_and_sync_time
    (clone : Nat → CloneOptions → Except String ClonedRepo) (env : Env)
    (now : GoTime) (repo : Repository) (st : StoreState) (h : String)
    {m : List (String × Value)}
    (hres : getLatestCommit clone repo = Except.ok h)
    (hint : env.interf 0 = none) (hget : env.getO 0 = none)
    (hupd : env.updO 0 = none)
    (happ : applyChanges st.record (changesetFor h now) = Except.ok m) :
    (processRepo clone env now repo st).retryErr = some none
    ∧ (processRepo clone env now repo st).store.record = m
    ∧ getNestedValue (.vmap m) commitHashKeys = some (.str h)
    ∧ getNestedValue (.vmap m) lastSyncKeys = some (.str (formatRFC1123 now))
    ∧ ∀ q, pathPrefix q lastSyncKeys = false → pathPrefix lastSyncKeys q = false →
        pathPrefix q commitHashKeys = false → pathPrefix commitHashKeys q = false →
        getNestedValue (.vmap m) q = getNestedValue (.vmap st.record) q := by
  have hrun : retryOnConflict env (changesetFor h now) st =
      ⟨none, ⟨m⟩, [(st.record, .updated st.record m none)], []⟩ := by
    rw [retryOnConflict_def, onErrorLoop_succ]
    simp only [stepStore, hint, attemptCore, hget, happ, hupd, AttemptRes.err]
  obtain ⟨hc, hl, hf⟩ := changeset_spec st.record m h now happ
  refine ⟨?_, ?_, hc, hl, hf⟩
  · simp only [processRepo, hres, hrun]
  · simp only [processRepo, hres, hrun]

/-- Witness for C1 at a concrete store, remote and clock. -/
theorem c1_witness :
    (processRepo cloneOkW envBenign nowW repoW ⟨recInitW⟩).retryErr = some none
    ∧ getNestedValue (.vmap (processRepo cloneOkW envBenign nowW repoW
        ⟨recInitW⟩).store.record) commitHashKeys = some (.str "abc123")
    ∧ getNestedValue (.vmap (processRepo cloneOkW envBenign nowW repoW
        ⟨recInitW⟩).store.record) lastSyncKeys
        = some (.str "Wed, 01 Jan 2020 10:00:00 UTC")
    ∧ getNestedValue (.vmap (processRepo cloneOkW envBenign nowW repoW
        ⟨recInitW⟩).store.record) ["metadata", "name"] = some (.str "repo-a")
    ∧ getNestedValue (.vmap (processRepo cloneOkW envBenign nowW repoW
        ⟨recInitW⟩).store.record) ["spec", "repoUrl"]
        = some (.str "https://example/a.git") := by
  have H := c1_pass_writes_commit_hash_and_sync_time cloneOkW envBenign nowW
    repoW ⟨recInitW⟩ "abc123" rfl rfl rfl rfl rfl
  refine ⟨H.1, ?_, ?_, ?_, ?_⟩
  · rw [H.2.1]; exact H.2.2.1
  · rw [H.2.1]
    have := H.2.2.2.1
    rw [this]
    rfl
  · rw [H.2.1]
    rw [H.2.2.2.2 ["metadata", "name"] (by decide) (by decide) (by decide)
      (by decide)]
    rfl
  · rw [H.2.1]
    rw [H.2.2.2.2 ["spec", "repoUrl"] (by decide) (by decide) (by decide)
      (by decide)]
    rfl

/-- Claim C2: under a persistent write conflict (every Get clean, every
Update rejected as a conflict, no concurrent writer) the updater re-reads
the unchanged record on each of the five budgeted attempts, sleeps its
backoff between attempts (four sleeps in [10ms, 11ms)), returns the conflict
error of the last attempt, and leaves the stored record exactly as it was
before the cycle. -/
theorem c2_persistent_conflict_exhausts_budget (env : Env)
    (cs : List unstructuredChange) (st : StoreState)
    {m : List (String × Value)}
    (hget : ∀ i, env.getO i = none) (hint : ∀ i, env.interf i = none)
    (hconf : ∀ i, ∃ e, env.updO i = some (.conflict e))
    (happ : applyChanges st.record cs = Except.ok m) :
    (retryOnConflict env cs st).result = env.updO 4
    ∧ (retryOnConflict env cs st).store = st
    ∧ (retryOnConflict env cs st).log.length = 5
    ∧ (∀ p ∈ (retryOnConflict env cs st).log,
        p.1 = st.record ∧ p.2 = .updated st.record m p.2.err)
    ∧ (retryOnConflict env cs st).sleeps.length = 4
    ∧ (∀ d ∈ (retryOnConflict env cs st).sleeps,
        10000000 ≤ d ∧ d < 11000000) := by
  obtain ⟨h₁, h₂, h₃, h₄, h₅, h₆⟩ :=
    onErrorLoop_conflicts env cs st m hget hint hconf happ 4 0 none
  rw [retryOnConflict_def]
  refine ⟨?_, h₂, h₃, h₄, h₅, ?_⟩
  · rw [h₁]
  · intro d hd
    obtain ⟨j, rfl⟩ := h₆ d hd
    exact sleepNs_bounds env j

/-- Witness for C2: five conflicts, five attempts, store untouched. -/
theorem c2_witness :
    (retryOnConflict envConflictW csW ⟨recInitW⟩).result
      = some (KErr.conflict "the object has been modified 4")
    ∧ (retryOnConflict envConflictW csW ⟨recInitW⟩).store = ⟨recInitW⟩
    ∧ (retryOnConflict envConflictW csW ⟨recInitW⟩).log.length = 5
    ∧ (retryOnConflict envConflictW csW ⟨recInitW⟩).sleeps.length = 4 := by
  have H := c2_persistent_conflict_exhausts_budget envConflictW csW ⟨recInitW⟩
    (fun i => rfl) (fun i => rfl) (fun i => ⟨_, rfl⟩) rfl
  exact ⟨by rw [H.1]; rfl, H.2.1, H.2.2.1, H.2.2.2.2.1⟩

/-- Claim C3 names a code bug: processRepo must signal the shared WaitGroup
on every path, but on the early return taken when getLatestCommit fails the
deferred wg.Done at the end of the function was never registered, so the
worker never signals and the join-all barrier blocks; the success path does
signal. Both the cronjob and the cmd variant have the misplaced defer. -/
theorem c3_wg_done_skipped_on_resolver_failure :
    (processRepo cloneFailW envBenign nowW repoW ⟨recInitW⟩).wgDone = false
    ∧ (processRepo cloneFailW envBenign nowW repoW ⟨recInitW⟩).errorLog
        = some ("authentication required", "https://example/a.git")
    ∧ cmdProcessRepo cloneFailW repoW
        = (false, some ("authentication required", "https://example/a.git"))
    ∧ (processRepo cloneOkW envBenign nowW repoW ⟨recInitW⟩).wgDone = true :=
  ⟨rfl, rfl, rfl, rfl⟩

/-- Counterexample to C4 as stated: a Get failure carrying a
conflict-classified error is a failure other than a write conflict, yet the
loop does not end immediately — it runs all five attempts and four backoff
sleeps before returning the error. -/
theorem c4_read_conflict_is_retried :
    (retryOnConflict envGetConflictW csW ⟨recInitW⟩).log.length = 5
    ∧ (retryOnConflict envGetConflictW csW ⟨recInitW⟩).sleeps.length = 4
    ∧ (retryOnConflict envGetConflictW csW ⟨recInitW⟩).result
        = some (KErr.conflict "get version conflict") :=
  ⟨rfl, rfl, rfl⟩

/-- Claim C4 (amended): any NON-conflict failure ends the retry loop
immediately after one attempt, with no sleep and the store untouched: a read
failing with a non-conflict error is returned as is; a structural
SetNestedField failure is returned without another attempt; a non-conflict
update failure is returned without retry. (A conflict-classified read error
is retried by the wrapper like a write conflict.) -/
theorem c4_nonconflict_failure_immediate :
    (∀ (env : Env) (cs : List unstructuredChange) (st : StoreState) e,
      env.interf 0 = none → env.getO 0 = some (KErr.other e) →
      retryOnConflict env cs st =
        ⟨some (KErr.other e), st, [(st.record, .getFailed (KErr.other e))], []⟩)
    ∧ (∀ (env : Env) (cs : List unstructuredChange) (st : StoreState) msg,
      env.interf 0 = none → env.getO 0 = none →
      applyChanges st.record cs = Except.error msg →
      retryOnConflict env cs st =
        ⟨some (KErr.other msg), st, [(st.record, .setFailed st.record msg)], []⟩)
    ∧ (∀ (env : Env) (cs : List unstructuredChange) (st : StoreState) m e,
      env.interf 0 = none → env.getO 0 = none →
      applyChanges st.record cs = Except.ok m →
      env.updO 0 = some (KErr.other e) →
      retryOnConflict env cs st =
        ⟨some (KErr.other e), st,
          [(st.record, .updated st.record m (some (KErr.other e)))], []⟩) := by
  refine ⟨?_, ?_, ?_⟩
  · intro env cs st e hint hget
    rw [retryOnConflict_def, onErrorLoop_succ]
    simp only [stepStore, hint, attemptCore, hget, AttemptRes.err,
      KErr.isConflict]
    simp
  · intro env cs st msg hint hget happ
    rw [retryOnConflict_def, onErrorLoop_succ]
    simp only [stepStore, hint, attemptCore, hget, happ, AttemptRes.err,
      KErr.isConflict]
    simp
  · intro env cs st m e hint hget happ hupd
    rw [retryOnConflict_def, onErrorLoop_succ]
    simp only [stepStore, hint, attemptCore, hget, happ, hupd,
      AttemptRes.err, KErr.isConflict]
    simp

/-- Witness for C4 (amended) at a concrete non-conflict read failure. -/
theorem c4_witness :
    retryOnConflict envGetOtherW csW ⟨recInitW⟩ =
      ⟨some (KErr.other "connection refused"), ⟨recInitW⟩,
        [(recInitW, .getFailed (KErr.other "connection refused"))], []⟩ :=
  c4_nonconflict_failure_immediate.1 envGetOtherW csW ⟨recInitW⟩
    "connection refused" rfl rfl

/-- Claim C5: every attempt of the retry loop applies the changeset to the
record that same attempt read from the store (also when a concurrent writer
replaced it between attempts), the changeset — built once from the hash and
the formatted timestamp before the loop — is the same in all attempts, and
the resolver is consulted exactly once: the run is unchanged under any
remote stream that agrees on the first clone response. -/
theorem c5_fresh_read_fixed_changeset
    (clone : Nat → CloneOptions → Except String ClonedRepo) (env : Env)
    (now : GoTime) (repo : Repository) (st : StoreState) (h : String)
    (hres : getLatestCommit clone repo = Except.ok h) :
    (∀ p ∈ (processRepo clone env now repo st).attempts,
      ∀ got sub r, p.2 = AttemptRes.updated got sub r →
        got = p.1 ∧ applyChanges p.1 (changesetFor h now) = Except.ok sub)
    ∧ (∀ clone₂, clone₂ 0 = clone 0 →
        processRepo clone₂ env now repo st = processRepo clone env now repo st) := by
  constructor
  · intro p hp got sub r hpr
    have hattempts : (processRepo clone env now repo st).attempts
        = (retryOnConflict env (changesetFor h now) st).log := by
      simp only [processRepo, hres]
    rw [hattempts] at hp
    exact onErrorLoop_log_spec env (changesetFor h now) defaultRetrySteps 0
      none st p hp got sub r hpr
  · intro clone₂ hc
    have heq : getLatestCommit clone₂ repo = getLatestCommit clone repo := by
      simp only [getLatestCommit, hc]
    simp only [processRepo, heq]

/-- Witness for C5: a stream that differs from the benign remote everywhere
but at response 0 yields the identical run. -/
theorem c5_witness :
    processRepo cloneAltW envBenign nowW repoW ⟨recInitW⟩
      = processRepo cloneOkW envBenign nowW repoW ⟨recInitW⟩ :=
  (c5_fresh_read_fixed_changeset cloneOkW envBenign nowW repoW ⟨recInitW⟩
    "abc123" rfl).2 cloneAltW rfl

/-- Claim C6: a successful changeset application sets exactly the two listed
nested paths — reading them back yields the new values, every incomparable
path is undisturbed — and setting the commit-hash annotation on a record
whose metadata.annotations map is absent (metadata absent, or a map without
annotations) creates the intermediate maps rather than failing. -/
theorem c6_changeset_sets_paths_and_frames :
    (∀ (obj obj₂ : List (String × Value)) (h : String) (now : GoTime),
      applyChanges obj (changesetFor h now) = Except.ok obj₂ →
      getNestedValue (.vmap obj₂) commitHashKeys = some (.str h)
      ∧ getNestedValue (.vmap obj₂) lastSyncKeys
          = some (.str (formatRFC1123 now))
      ∧ ∀ q, pathPrefix q lastSyncKeys = false →
          pathPrefix lastSyncKeys q = false →
          pathPrefix q commitHashKeys = false →
          pathPrefix commitHashKeys q = false →
          getNestedValue (.vmap obj₂) q = getNestedValue (.vmap obj) q)
    ∧ (∀ (obj : List (String × Value)) (v : String),
      (mapGet obj "metadata" = none
        ∨ ∃ md, mapGet obj "metadata" = some (.vmap md)
            ∧ (mapGet md "annotations" = none
               ∨ ∃ an, mapGet md "annotations" = some (.vmap an))) →
      ∃ obj₂, setNestedFieldMap obj (.str v) commitHashKeys = .ok obj₂
        ∧ getNestedValue (.vmap obj₂) commitHashKeys = some (.str v)) :=
  ⟨fun obj obj₂ h now happ => changeset_spec obj obj₂ h now happ,
   fun obj v hs => setNested_creates obj v hs⟩

/-- Witness for C6: creating the annotations map from a fully empty record. -/
theorem c6_witness :
    ∃ obj₂, setNestedFieldMap [] (Value.str "abc123") commitHashKeys
        = Except.ok obj₂
      ∧ getNestedValue (Value.vmap obj₂) commitHashKeys
        = some (Value.str "abc123") :=
  c6_changeset_sets_paths_and_frames.2 [] "abc123" (Or.inl rfl)

/-- Counterexample to C7 as stated: a list result with a record lacking
spec.repoUrl makes getRepos panic on the type assertion rather than return a
decoding error — the pass dies by an uncontrolled crash, not by an error
value. -/
theorem c7_missing_field_panics :
    getReposGo (Except.ok [badItemW])
      = ListOutcome.panicked "interface conversion: spec.repoUrl is not a string" :=
  rfl

/-- Claim C7 (amended): a failed List call is returned as the pass error;
with a successful List call, either every record decodes and getRepos
returns one Repository per listed record, or the first absent or
wrongly-shaped field panics the pass (an uncontrolled type-assertion crash,
not a returned decoding error and not a per-record skip). -/
theorem c7_decode_panics_or_lists :
    (∀ e, getReposGo (Except.error e) = ListOutcome.err e)
    ∧ (∀ items,
        (∃ rs, decodeItems items = Except.ok rs
          ∧ getReposGo (Except.ok items) = ListOutcome.ok rs
          ∧ rs.length = items.length)
        ∨ (∃ msg, decodeItems items = Except.error msg
          ∧ getReposGo (Except.ok items) = ListOutcome.panicked msg)) := by
  constructor
  · intro e; rfl
  · intro items
    cases hd : decodeItems items with
    | ok rs =>
      exact Or.inl ⟨rs, rfl, by simp [getReposGo, hd],
        decodeItems_length items rs hd⟩
    | error msg => exact Or.inr ⟨msg, rfl, by simp [getReposGo, hd]⟩

/-- Counterexample to C8 as stated: on an authentication failure the
resolver returns the transport error verbatim; the returned error does not
carry the repository URL (the URL is not even a substring of it). -/
theorem c8_error_without_url :
    getLatestCommit cloneFailW repoW = Except.error "authentication required"
    ∧ repoW.url = "https://example/a.git"
    ∧ containsSub repoW.url.data "authentication required".data = false :=
  ⟨rfl, rfl, by decide⟩

/-- Claim C8 (amended): getLatestCommit surfaces clone and Head failures by
returning the underlying error unchanged — no wrapping, no URL attached; the
repository URL is attached only in the caller's log record, and the failed
worker performs no update attempts; the resolver performs no retry: only the
first clone response is ever consulted. -/
theorem c8_error_passthrough_no_retry
    (clone : Nat → CloneOptions → Except String ClonedRepo)
    (repo : Repository) :
    (∀ e, clone 0 (cloneOpts repo) = Except.error e →
      getLatestCommit clone repo = Except.error e)
    ∧ (∀ r e, clone 0 (cloneOpts repo) = Except.ok r →
      r.head = Except.error e → getLatestCommit clone repo = Except.error e)
    ∧ (∀ clone₂, clone₂ 0 = clone 0 →
      getLatestCommit clone₂ repo = getLatestCommit clone repo)
    ∧ (∀ (env : Env) (now : GoTime) (st : StoreState) e,
      getLatestCommit clone repo = Except.error e →
      (processRepo clone env now repo st).errorLog = some (e, repo.url)
      ∧ (processRepo clone env now repo st).attempts = []
      ∧ (processRepo clone env now repo st).store = st) := by
  refine ⟨?_, ?_, ?_, ?_⟩
  · intro e he; simp [getLatestCommit, he]
  · intro r e hc hh; simp [getLatestCommit, hc, hh]
  · intro clone₂ hc; simp only [getLatestCommit, hc]
  · intro env now st e he
    refine ⟨?_, ?_, ?_⟩ <;> simp only [processRepo, he]

/-- Witness for C8 (amended) at the failing remote. -/
theorem c8_witness :
    getLatestCommit cloneFailW repoW = Except.error "authentication required"
    ∧ (processRepo cloneFailW envBenign nowW repoW ⟨recInitW⟩).errorLog
        = some ("authentication required", "https://example/a.git")
    ∧ (processRepo cloneFailW envBenign nowW repoW ⟨recInitW⟩).attempts = [] := by
  have H := c8_error_passthrough_no_retry cloneFailW repoW
  have h₁ : getLatestCommit cloneFailW repoW
      = Except.error "authentication required" :=
    H.1 "authentication required" rfl
  have h₂ := H.2.2.2 envBenign nowW ⟨recInitW⟩ "authentication required" h₁
  exact ⟨h₁, h₂.1, h₂.2.1⟩

/-- Claim C9 names a code bug: after the cancellation signal the cmd loop
breaks out and returns before any further tick, but the part_001 loop only
calls cancel() again and keeps looping — on the same schedule (Done, then a
tick) it is still running and still processes the tick. -/
theorem c9_part001_loop_never_returns :
    runLoop cmdLoopCase schedW = LoopRun.returned []
    ∧ runLoop part001LoopCase schedW
        = LoopRun.ranOut [TickAction.logListError (KErr.other "boom")] :=
  ⟨rfl, rfl⟩

/-- Claim C10: part_001's getRepos discards the entries it decodes and
returns the nil slice with a nil error on every successful list, so its
ticker branch only dumps an empty slice and launches no worker, while the
getRepos shared by the cronjob and cmd variants returns one Repository per
listed record and the cmd ticker branch launches one worker per repository. -/
theorem c10_part001_discards_repositories :
    (∀ items rs₀, decodeItems001 items = Except.ok rs₀ →
      getRepos001 (Except.ok items) = ListOutcome001.ok []
      ∧ part001Tick (Except.ok items) = Except.ok [TickAction.dumpRepos001 []])
    ∧ (∀ items rs, decodeItems items = Except.ok rs →
      getReposGo (Except.ok items) = ListOutcome.ok rs
      ∧ rs.length = items.length
      ∧ cmdTick (Except.ok items) = Except.ok (rs.map TickAction.launchWorker)) := by
  constructor
  · intro items rs₀ hd
    have hg : getRepos001 (Except.ok items) = ListOutcome001.ok [] := by
      simp [getRepos001, hd]
    exact ⟨hg, by simp [part001Tick, hg]⟩
  · intro items rs hd
    have hg : getReposGo (Except.ok items) = ListOutcome.ok rs := by
      simp [getReposGo, hd]
    exact ⟨hg, decodeItems_length items rs hd, by simp [cmdTick, hg]⟩

/-- Witness for C10 at a one-record store. -/
theorem c10_witness :
    getRepos001 (Except.ok [recInitW]) = ListOutcome001.ok []
    ∧ part001Tick (Except.ok [recInitW])
        = Except.ok [TickAction.dumpRepos001 []]
    ∧ getReposGo (Except.ok [recInitW])
        = ListOutcome.ok [⟨"repo-a", "", "https://example/a.git", "t", "u"⟩]
    ∧ cmdTick (Except.ok [recInitW])
        = Except.ok [TickAction.launchWorker
            ⟨"repo-a", "", "https://example/a.git", "t", "u"⟩] := by
  have H₁ := c10_part001_discards_repositories.1 [recInitW] _ rfl
  have H₂ := c10_part001_discards_repositories.2 [recInitW] _ rfl
  exact ⟨H₁.1, H₁.2, H₂.1, H₂.2.2⟩

end Ernesto
